/-
  Verification of the FlowQuery query engine (flowquery-py) against its
  natural-language specification.

  Shallow embedding: the Python data model and operations are translated
  into Lean definitions.  Python dicts with string keys become association
  lists (`Record`), Python values become the tagged `PyVal` type, raised
  exceptions become `Except String`, and mutable state is passed
  explicitly.  Each definition's doc comment names the source file and
  function it embeds; definitions marked "Modelled from the spec" stand in
  for modules of the repository that are not part of the source snapshot
  (node.py, patterns.py, hops.py, the Runner).
-/
import Mathlib

namespace FlowQuery

/-! ## Value model

A scalar value flowing through the pipeline: Python `None`, `int`/`float`
(collapsed to `Int`; no claim under verification depends on fractional
record values), and `str`.  Records are insertion-ordered mappings from
column name to scalar, as produced by RETURN projections. -/

inductive PyVal where
  | vnull : PyVal
  | vint : Int → PyVal
  | vstr : String → PyVal
deriving DecidableEq

/-- A record: an insertion-ordered mapping column-name → scalar,
embedding a Python dict with string keys. -/
abbrev Record := List (String × PyVal)

/-- Dict lookup `record[key]` / `key in record`: first binding wins
(Python dicts have unique keys, so association order is irrelevant). -/
def rlookup : Record → String → Option PyVal
  | [], _ => none
  | (k, v) :: rest, key => if k = key then some v else rlookup rest key

/-! ## coalesce (src/parsing/functions/coalesce.py)

`Coalesce.value` iterates its children; a child whose evaluation raises
`KeyError` or `AttributeError` is treated as `None`; any other exception
propagates.  The first non-`None` value is returned; with no children a
`ValueError` is raised. -/

/-- The outcome of evaluating one argument of `coalesce`: a value
(possibly `None`), a `KeyError`, an `AttributeError`, or some other
exception (which `Coalesce.value` does not catch). -/
inductive ArgEval where
  | ok : PyVal → ArgEval
  | keyError : ArgEval
  | attributeError : ArgEval
  | otherError : String → ArgEval
deriving DecidableEq

/-- The `for child in children` loop of `Coalesce.value`
(coalesce.py, lines 35-43). -/
def coalesceLoop : List ArgEval → Except String PyVal
  | [] => .ok .vnull
  | c :: rest =>
    match c with
    | .otherError m => .error m
    | .keyError => coalesceLoop rest
    | .attributeError => coalesceLoop rest
    | .ok v => if v = .vnull then coalesceLoop rest else .ok v

/-- `Coalesce.value` (coalesce.py, lines 32-44): zero arguments raise;
otherwise run the loop; falling off the loop returns `None`. -/
def coalesceValue (children : List ArgEval) : Except String PyVal :=
  if children.isEmpty then .error "coalesce() requires at least one argument"
  else coalesceLoop children

/-- An argument that `coalesce` treats as null: it evaluated to `None`
or raised a missing-key / missing-attribute error. -/
def nullish (c : ArgEval) : Prop :=
  c = .keyError ∨ c = .attributeError ∨ c = .ok .vnull

lemma coalesceLoop_all_nullish (cs : List ArgEval) (h : ∀ x ∈ cs, nullish x) :
    coalesceLoop cs = .ok .vnull := by
  induction cs with
  | nil => rfl
  | cons c rest ih =>
    have hc := h c (List.mem_cons_self c rest)
    have hrest : ∀ x ∈ rest, nullish x := fun x hx => h x (List.mem_cons_of_mem c hx)
    rcases hc with hc | hc | hc <;> subst hc <;> simp [coalesceLoop, ih hrest]

lemma coalesceLoop_first_value (pre : List ArgEval) (v : PyVal) (post : List ArgEval)
    (hpre : ∀ x ∈ pre, nullish x) (hv : v ≠ .vnull) :
    coalesceLoop (pre ++ .ok v :: post) = .ok v := by
  induction pre with
  | nil => simp [coalesceLoop, hv]
  | cons c rest ih =>
    have hc := hpre c (List.mem_cons_self c rest)
    have hrest : ∀ x ∈ rest, nullish x := fun x hx => hpre x (List.mem_cons_of_mem c hx)
    rcases hc with hc | hc | hc <;> subst hc <;> simp [coalesceLoop, ih hrest]

/-- C9: coalesce() treats a missing-key or missing-attribute failure of an
argument as null and moves on; it returns the first argument that
evaluates to a non-null value, returns null when every argument is null
or fails that way, and raises when called with zero arguments. -/
theorem C9_coalesce_first_non_null :
    (coalesceValue [] = .error "coalesce() requires at least one argument") ∧
    (∀ pre v post, (∀ x ∈ pre, nullish x) → v ≠ .vnull →
      coalesceValue (pre ++ .ok v :: post) = .ok v) ∧
    (∀ cs, cs ≠ [] → (∀ x ∈ cs, nullish x) → coalesceValue cs = .ok .vnull) := by
  refine ⟨rfl, ?_, ?_⟩
  · intro pre v post hpre hv
    have : (pre ++ ArgEval.ok v :: post).isEmpty = false := by
      cases pre <;> rfl
    simp [coalesceValue, this, coalesceLoop_first_value pre v post hpre hv]
  · intro cs hne hall
    have : cs.isEmpty = false := by cases cs with
      | nil => exact absurd rfl hne
      | cons c rest => rfl
    simp [coalesceValue, this, coalesceLoop_all_nullish cs hall]

/-- Witness for C9: a key-error argument followed by a string returns the
string, null arguments alone give null. -/
theorem C9_coalesce_first_non_null_witness :
    coalesceValue [.keyError, .ok (.vstr "x")] = .ok (.vstr "x") ∧
    coalesceValue [.attributeError, .ok .vnull] = .ok .vnull := by
  constructor
  · exact C9_coalesce_first_non_null.2.1 [.keyError] (.vstr "x") []
      (by intro x hx; simp only [List.mem_singleton] at hx; subst hx; exact Or.inl rfl)
      (by intro h; cases h)
  · exact C9_coalesce_first_non_null.2.2 [.attributeError, .ok .vnull]
      (by intro h; cases h)
      (by
        intro x hx
        simp only [List.mem_cons, List.not_mem_nil, or_false] at hx
        rcases hx with rfl | rfl
        · exact Or.inr (Or.inl rfl)
        · exact Or.inr (Or.inr rfl))

/-! ## string_distance (src/parsing/functions/string_distance.py)

`_levenshtein_distance` fills an (m+1)×(n+1) dynamic-programming matrix
row by row (base row `dp[0][j] = j`, base column `dp[i][0] = i`, then
`dp[i][j] = min(dp[i-1][j]+1, dp[i][j-1]+1, dp[i-1][j-1]+cost)`) and
returns `dp[m][n] / max(m, n)`, guarding the case of two empty strings.
We embed the matrix cell (i, j) as `dpFn a b i j`, computed with the same
recurrence, and separately state the textbook Levenshtein recursion
`levSpec` as the specification to compare against. -/

/-- One row of the DP matrix of `_levenshtein_distance`: `prev` is row
i-1, `base` the value of column 0 (that is, i), and `cost j` the
substitution cost `0 if a[i-1] == b[j-1] else 1` for this row. -/
def dpRowFn (cost : Nat → Nat) (prev : Nat → Nat) (base : Nat) : Nat → Nat
  | 0 => base
  | j + 1 =>
    min (prev (j + 1) + 1)
      (min (dpRowFn cost prev base j + 1) (prev j + cost j))

/-- Cell (i, j) of the DP matrix filled by `_levenshtein_distance`
(string_distance.py, lines 33-48): row 0 is `j`, and row i+1 is obtained
from row i by the edit-distance recurrence with the substitution cost
taken from characters `a[i]` and `b[j]`. -/
def dpFn (a b : List Char) : Nat → Nat → Nat
  | 0 => fun j => j
  | i + 1 =>
    dpRowFn (fun j => if a.getD i 'a' = b.getD j 'a' then 0 else 1) (dpFn a b i) (i + 1)

/-- Helper for the specification recursion: the distance from `x :: xs`
to `ys`, given `prev = levSpec xs` (distance from `xs`). -/
def levAux (x : Char) (prev : List Char → Nat) : List Char → Nat
  | [] => prev [] + 1
  | y :: ys =>
    min (prev (y :: ys) + 1)
      (min (levAux x prev ys + 1) (prev ys + if x = y then 0 else 1))

/-- The Levenshtein edit distance: the textbook recursion (deletion,
insertion, substitution, each costing one; equal heads cost zero), here
structured as a nested recursion so that its characteristic equations
(`levSpec_nil_left`, `levSpec_nil_right`, `levSpec_cons_cons` below) hold
definitionally.  This is the specification the claim asserts the DP
computes. -/
def levSpec : List Char → List Char → Nat
  | [], ys => ys.length
  | x :: xs, ys => levAux x (levSpec xs) ys

/-- `_levenshtein_distance` (string_distance.py, lines 9-51): guard two
empty strings, then normalise `dp[m][n]` by the longer length. -/
def levenshteinNormalized (a b : String) : ℚ :=
  if a.length = 0 ∧ b.length = 0 then 0
  else (dpFn a.toList b.toList a.length b.length : ℚ) / ((max a.length b.length : ℕ) : ℚ)

/-- `StringDistance.value` (string_distance.py, lines 85-90): both
arguments must be strings, otherwise a ValueError is raised. -/
def stringDistanceValue (v1 v2 : PyVal) : Except String ℚ :=
  match v1, v2 with
  | .vstr a, .vstr b => .ok (levenshteinNormalized a b)
  | _, _ =>
    .error "Invalid arguments for string_distance function: both arguments must be strings"

lemma levSpec_nil_left (ys : List Char) : levSpec [] ys = ys.length := rfl

lemma levSpec_nil_right (xs : List Char) : levSpec xs [] = xs.length := by
  induction xs with
  | nil => rfl
  | cons x xs ih => show levSpec xs [] + 1 = xs.length + 1; rw [ih]

lemma levSpec_cons_cons (x y : Char) (xs ys : List Char) :
    levSpec (x :: xs) (y :: ys) =
      min (levSpec xs (y :: ys) + 1)
        (min (levSpec (x :: xs) ys + 1)
          (levSpec xs ys + if x = y then 0 else 1)) := rfl

set_option maxHeartbeats 1000000 in
/-- The Levenshtein recursion also satisfies the recurrence on the *last*
characters; this is what relates the row-by-row DP fill to the
front-recursive specification. -/
lemma levSpec_append_last (x y : Char) :
    ∀ (n : ℕ) (xs ys : List Char), xs.length + ys.length ≤ n →
      levSpec (xs ++ [x]) (ys ++ [y]) =
        min (levSpec (xs ++ [x]) ys + 1)
          (min (levSpec xs (ys ++ [y]) + 1)
            (levSpec xs ys + if x = y then 0 else 1)) := by
  intro n
  induction n with
  | zero =>
    intro xs ys h
    have hxs : xs = [] := List.length_eq_zero.mp (by omega)
    have hys : ys = [] := List.length_eq_zero.mp (by omega)
    subst hxs; subst hys
    simp only [List.nil_append, levSpec_cons_cons x y [] [],
      levSpec_nil_left, levSpec_nil_right, List.length_nil, List.length_cons]
  | succ n ih =>
    intro xs ys h
    match xs, ys with
    | [], [] =>
      simp only [List.nil_append, levSpec_cons_cons x y [] [],
        levSpec_nil_left, levSpec_nil_right, List.length_nil, List.length_cons]
    | x₀ :: xs', [] =>
      have h1 := ih xs' [] (by simp at h ⊢; omega)
      simp only [List.nil_append] at h1 ⊢
      simp only [List.cons_append]
      rw [levSpec_cons_cons x₀ y (xs' ++ [x]) [], h1,
        levSpec_cons_cons x₀ y xs' []]
      simp only [levSpec_nil_right, levSpec_nil_left, List.length_append,
        List.length_cons, List.length_nil]
      generalize (if x = y then (0 : ℕ) else 1) = c₁
      generalize (if x₀ = y then (0 : ℕ) else 1) = c₂
      generalize levSpec xs' [y] = p
      generalize xs'.length = n₁
      apply le_antisymm <;>
        simp only [← min_add_add_right, le_min_iff, min_le_iff] <;>
        omega
    | [], y₀ :: ys' =>
      have h1 := ih [] ys' (by simp at h ⊢; omega)
      simp only [List.nil_append] at h1 ⊢
      simp only [List.cons_append]
      rw [levSpec_cons_cons x y₀ [] (ys' ++ [y]), h1,
        levSpec_cons_cons x y₀ [] ys']
      simp only [levSpec_nil_right, levSpec_nil_left, List.length_append,
        List.length_cons, List.length_nil]
      generalize (if x = y then (0 : ℕ) else 1) = c₁
      generalize (if x = y₀ then (0 : ℕ) else 1) = c₂
      generalize levSpec [x] ys' = p
      generalize ys'.length = n₁
      apply le_antisymm <;>
        simp only [← min_add_add_right, le_min_iff, min_le_iff] <;>
        omega
    | x₀ :: xs', y₀ :: ys' =>
      have hT1 := ih xs' (y₀ :: ys') (by simp at h ⊢; omega)
      have hT2 := ih (x₀ :: xs') ys' (by simp at h ⊢; omega)
      have hT3 := ih xs' ys' (by simp at h ⊢; omega)
      simp only [List.cons_append] at hT1 hT2 ⊢
      rw [levSpec_cons_cons x₀ y₀ (xs' ++ [x]) (ys' ++ [y]), hT1, hT2, hT3,
        levSpec_cons_cons x₀ y₀ (xs' ++ [x]) ys',
        levSpec_cons_cons x₀ y₀ xs' (ys' ++ [y]),
        levSpec_cons_cons x₀ y₀ xs' ys']
      generalize (if x = y then (0 : ℕ) else 1) = c₁
      generalize (if x₀ = y₀ then (0 : ℕ) else 1) = c₂
      generalize levSpec (xs' ++ [x]) (y₀ :: ys') = p
      generalize levSpec xs' (y₀ :: (ys' ++ [y])) = q
      generalize levSpec xs' (y₀ :: ys') = r
      generalize levSpec (x₀ :: (xs' ++ [x])) ys' = s
      generalize levSpec (x₀ :: xs') (ys' ++ [y]) = t
      generalize levSpec (x₀ :: xs') ys' = u
      generalize levSpec (xs' ++ [x]) ys' = v
      generalize levSpec xs' (ys' ++ [y]) = w
      generalize levSpec xs' ys' = z
      apply le_antisymm <;>
        simp only [← min_add_add_right, le_min_iff, min_le_iff] <;>
        omega

lemma dpFn_zero (a b : List Char) (j : Nat) : dpFn a b 0 j = j := rfl

lemma dpFn_succ_zero (a b : List Char) (i : Nat) : dpFn a b (i + 1) 0 = i + 1 := rfl

lemma dpFn_succ_succ (a b : List Char) (i j : Nat) :
    dpFn a b (i + 1) (j + 1) =
      min (dpFn a b i (j + 1) + 1)
        (min (dpFn a b (i + 1) j + 1)
          (dpFn a b i j + if a.getD i 'a' = b.getD j 'a' then 0 else 1)) := rfl

/-- The DP matrix of `_levenshtein_distance` computes the Levenshtein
distance of the corresponding prefixes. -/
lemma dpFn_eq_levSpec (a b : List Char) :
    ∀ i j, i ≤ a.length → j ≤ b.length →
      dpFn a b i j = levSpec (a.take i) (b.take j) := by
  intro i
  induction i with
  | zero =>
    intro j _ hj
    rw [dpFn_zero, List.take_zero, levSpec_nil_left, List.length_take]
    omega
  | succ i ih =>
    intro j hi hj
    induction j with
    | zero =>
      rw [dpFn_succ_zero, List.take_zero, levSpec_nil_right, List.length_take]
      omega
    | succ j ihj =>
      have hia : i < a.length := by omega
      have hjb : j < b.length := by omega
      rw [dpFn_succ_succ, ihj (by omega),
        ih (j + 1) (by omega) (by omega), ih j (by omega) (by omega),
        ← List.take_concat_get' a i hia, ← List.take_concat_get' b j hjb,
        levSpec_append_last a[i] b[j]
          ((a.take i).length + (b.take j).length) (a.take i) (b.take j) le_rfl,
        List.getD_eq_getElem a 'a' hia, List.getD_eq_getElem b 'a' hjb]
      apply le_antisymm <;> simp only [le_min_iff, min_le_iff] <;> omega

/-- Levenshtein distance is at most the length of the longer string. -/
lemma levSpec_le_max :
    ∀ (n : ℕ) (xs ys : List Char), xs.length + ys.length ≤ n →
      levSpec xs ys ≤ max xs.length ys.length := by
  intro n
  induction n with
  | zero =>
    intro xs ys h
    have hxs : xs = [] := List.length_eq_zero.mp (by omega)
    have hys : ys = [] := List.length_eq_zero.mp (by omega)
    subst hxs; subst hys
    simp [levSpec_nil_left]
  | succ n ih =>
    intro xs ys h
    match xs, ys with
    | [], ys => rw [levSpec_nil_left]; omega
    | x :: xs', [] => rw [levSpec_nil_right]; omega
    | x :: xs', y :: ys' =>
      have hsub := ih xs' ys' (by simp at h ⊢; omega)
      have hmin : levSpec (x :: xs') (y :: ys') ≤
          levSpec xs' ys' + if x = y then 0 else 1 := by
        rw [levSpec_cons_cons]
        exact (min_le_right _ _).trans (min_le_right _ _)
      have hcost : (if x = y then (0 : ℕ) else 1) ≤ 1 := by split <;> omega
      simp only [List.length_cons] at hsub ⊢
      omega

/-- C10: string_distance(a, b) returns the Levenshtein edit distance
between a and b divided by max(|a|, |b|), a value in [0, 1]; with two
empty strings the division is guarded and the result is 0; a non-string
argument raises an error rather than dividing. -/
theorem C10_string_distance_normalized_levenshtein :
    (∀ a b : String, stringDistanceValue (.vstr a) (.vstr b) =
      .ok (if a.length = 0 ∧ b.length = 0 then 0
        else (levSpec a.toList b.toList : ℚ) / ((max a.length b.length : ℕ) : ℚ))) ∧
    (∀ a b : String, ∀ q : ℚ,
      stringDistanceValue (.vstr a) (.vstr b) = .ok q → 0 ≤ q ∧ q ≤ 1) ∧
    (stringDistanceValue (.vstr "") (.vstr "") = .ok 0) ∧
    (∀ v w : PyVal, ((∀ s, v ≠ .vstr s) ∨ (∀ s, w ≠ .vstr s)) →
      stringDistanceValue v w =
        .error "Invalid arguments for string_distance function: both arguments must be strings") := by
  have hlen : ∀ s : String, s.toList.length = s.length := fun s => rfl
  have hval : ∀ a b : String, stringDistanceValue (.vstr a) (.vstr b) =
      .ok (if a.length = 0 ∧ b.length = 0 then 0
        else (levSpec a.toList b.toList : ℚ) / ((max a.length b.length : ℕ) : ℚ)) := by
    intro a b
    have hdp : dpFn a.toList b.toList a.length b.length =
        levSpec a.toList b.toList := by
      rw [dpFn_eq_levSpec a.toList b.toList a.length b.length
          (by rw [hlen]) (by rw [hlen]),
        ← hlen a, ← hlen b, List.take_length, List.take_length]
    simp only [stringDistanceValue, levenshteinNormalized, hdp]
  refine ⟨hval, ?_, ?_, ?_⟩
  · intro a b q hq
    rw [hval a b] at hq
    have hq' : q = if a.length = 0 ∧ b.length = 0 then 0
        else (levSpec a.toList b.toList : ℚ) / ((max a.length b.length : ℕ) : ℚ) := by
      cases hq; rfl
    subst hq'
    split
    · exact ⟨le_refl 0, by norm_num⟩
    · rename_i hne
      have hpos : 0 < max a.length b.length := by
        rcases Nat.eq_zero_or_pos a.length with ha | ha
        · rcases Nat.eq_zero_or_pos b.length with hb | hb
          · exact absurd ⟨ha, hb⟩ hne
          · omega
        · omega
      have hposq : (0 : ℚ) < ((max a.length b.length : ℕ) : ℚ) := by
        exact_mod_cast hpos
      constructor
      · positivity
      · rw [div_le_one hposq]
        have hle : levSpec a.toList b.toList ≤ max a.length b.length := by
          have := levSpec_le_max (a.toList.length + b.toList.length)
            a.toList b.toList le_rfl
          rwa [hlen, hlen] at this
        exact_mod_cast hle
  · have : stringDistanceValue (.vstr "") (.vstr "") =
        .ok (levenshteinNormalized "" "") := rfl
    rw [this]
    have : levenshteinNormalized "" "" = 0 := by
      simp [levenshteinNormalized]
    rw [this]
  · intro v w hvw
    cases v <;> cases w <;> first
      | rfl
      | (exfalso
         rcases hvw with hv | hw
         · rename_i s _; exact hv s rfl
         · rename_i s; exact hw s rfl)

/-- Witness for C10: at concrete inputs, string_distance("a", "b")
evaluates to a value in [0, 1], and a non-string argument errors. -/
theorem C10_string_distance_normalized_levenshtein_witness :
    ((0 : ℚ) ≤ 1 ∧ (1 : ℚ) ≤ 1) ∧
    stringDistanceValue (.vint 3) (.vstr "x") =
      .error "Invalid arguments for string_distance function: both arguments must be strings" := by
  constructor
  · exact C10_string_distance_normalized_levenshtein.2.1 "a" "b" 1 (by
      have h0 : stringDistanceValue (.vstr "a") (.vstr "b")
          = .ok (levenshteinNormalized "a" "b") := rfl
      have h2 : levenshteinNormalized "a" "b" = 1 := by
        rw [levenshteinNormalized]
        rw [show "a".length = 1 from rfl, show "b".length = 1 from rfl,
          show dpFn "a".toList "b".toList 1 1 = 1 from rfl]
        norm_num
      rw [h0, h2])
  · exact C10_string_distance_normalized_levenshtein.2.2.2 (.vint 3) (.vstr "x")
      (Or.inl (fun s h => by cases h))

/-! ## ORDER BY, LIMIT and RETURN (src/parsing/operations/order_by.py,
limit.py, return_op.py)

`Return.run` accumulates one record per call, captures sort keys when an
ORDER BY is attached, and consults / increments its LIMIT counter only
when no ORDER BY is attached.  `Return.results` sorts (when ORDER BY is
present) and then reads `self._limit.limit_value` to truncate — an
attribute the `Limit` class never defines. -/

/-- Python `<` between two scalar values, as used by `OrderBy.sort`:
numbers by numeric order, strings lexicographically.  (Python raises
`TypeError` on mixed-type or `None` comparisons; the comparator guards
`None` explicitly before reaching `<`, and mixed-type keys would crash
the sort — we return `false` for those pairs, which no sane query
reaches.) -/
def pyLt : PyVal → PyVal → Bool
  | .vint m, .vint n => m < n
  | .vstr s, .vstr t => s < t
  | _, _ => false

/-- The per-field comparison of `OrderBy.sort.compare` (order_by.py,
lines 83-96): both null → 0, null sorts before non-null, otherwise
Python `<` / `>`. -/
def cmpVals (a b : PyVal) : Int :=
  if a = .vnull ∧ b = .vnull then 0
  else if a = .vnull then -1
  else if b = .vnull then 1
  else if pyLt a b then -1
  else if pyLt b a then 1
  else 0

/-- The field-value pair the comparator uses for one sort field: from the
pre-computed sort keys when `use_keys`, else from the fallback
field-name lookup in the records (`.get` returns `None` when missing),
else the field is skipped (`continue`). -/
def fieldPair (useKeys : Bool) (keys : List (List PyVal)) (records : List Record)
    (fb : Option String) (fIdx ai bi : Nat) : Option (PyVal × PyVal) :=
  if useKeys then
    some ((keys.getD ai []).getD fIdx .vnull, (keys.getD bi []).getD fIdx .vnull)
  else
    match fb with
    | some name =>
      some ((rlookup (records.getD ai []) name).getD .vnull,
        (rlookup (records.getD bi []) name).getD .vnull)
    | none => none

/-- The `for f_idx, sf in enumerate(self._fields)` loop of
`OrderBy.sort.compare` (order_by.py, lines 81-101): first field with a
non-zero comparison decides, `desc` negates, exhausting the fields gives
0.  Each field is a pair (desc?, fallback reference name). -/
def cmpFields (useKeys : Bool) (keys : List (List PyVal)) (records : List Record) :
    List (Bool × Option String) → Nat → Nat → Nat → Int
  | [], _, _, _ => 0
  | (desc, fb) :: rest, fIdx, ai, bi =>
    match fieldPair useKeys keys records fb fIdx ai bi with
    | none => cmpFields useKeys keys records rest (fIdx + 1) ai bi
    | some (av, bv) =>
      let c := cmpVals av bv
      if c = 0 then cmpFields useKeys keys records rest (fIdx + 1) ai bi
      else if desc then -c else c

/-- The comparator on record indices built by `OrderBy.sort`:
`use_keys` iff one captured key tuple exists per record. -/
def orderByCompare (fields : List (Bool × Option String)) (keys : List (List PyVal))
    (records : List Record) (ai bi : Nat) : Int :=
  cmpFields (keys.length == records.length) keys records fields 0 ai bi

/-- Insert for a stable comparison sort: the new element goes before the
first existing element it compares strictly below, hence after every
element it ties with. -/
def insertStable (c : Nat → Nat → Int) (x : Nat) : List Nat → List Nat
  | [] => [x]
  | y :: ys => if c x y < 0 then x :: y :: ys else y :: insertStable c x ys

/-- Python `list.sort` with a comparator is a stable comparison sort; we
model it as stable insertion sort over the index list, which agrees with
any stable sort whenever the comparator is a total preorder. -/
def sortStable (c : Nat → Nat → Int) (xs : List Nat) : List Nat :=
  xs.foldl (fun acc x => insertStable c x acc) []

/-- `OrderBy.sort` (order_by.py, lines 52-105): sort the index list
`range(len(records))` with the comparator, stably, and read the records
back in that order. -/
def orderBySort (fields : List (Bool × Option String)) (sortKeys : List (List PyVal))
    (records : List Record) : List Record :=
  (sortStable (orderByCompare fields sortKeys records) (List.range records.length)).map
    (fun i => records.getD i [])

/-- The mutable accumulation state of a `Return` operation: collected
records (`_results`), the ORDER BY's captured sort-key tuples
(`OrderBy._sort_keys`), and the LIMIT's counter (`Limit._count`). -/
structure ReturnState where
  results : List Record
  sortKeys : List (List PyVal)
  limitCount : Nat
deriving DecidableEq

/-- State after `Return.initialize` (and fresh `OrderBy` / `Limit`). -/
def initReturnState : ReturnState := ⟨[], [], 0⟩

/-- `Return.run` (return_op.py, lines 58-79) for one pipeline emission:
`whereOk` is the truthiness of the WHERE clause, `record` the projected
record, `keys` the sort-key tuple `capture_sort_keys` would store.  With
an ORDER BY attached the limit is neither consulted nor incremented;
without one, an exhausted limit drops the record and an accepted record
increments the counter. -/
def returnRun (hasOrderBy : Bool) (lim : Option Nat) (whereOk : Bool)
    (record : Record) (keys : List PyVal) (st : ReturnState) : ReturnState :=
  if !whereOk then st
  else
    match hasOrderBy, lim with
    | false, some n =>
      if st.limitCount ≥ n then st
      else { st with results := st.results ++ [record], limitCount := st.limitCount + 1 }
    | false, none => { st with results := st.results ++ [record] }
    | true, _ =>
      { st with results := st.results ++ [record], sortKeys := st.sortKeys ++ [keys] }

/-- The member names the `Limit` class defines (limit.py, lines 6-30):
there is no `limit_value` member. -/
def limitMemberNames : List String :=
  ["is_limit_reached", "increment", "run", "reset"]

/-- `Return.results` (return_op.py, lines 81-88): with an ORDER BY, sort
the accumulated records; with both an ORDER BY and a LIMIT, the source
then reads `self._limit.limit_value` — an attribute the `Limit` class
does not define, so Python raises `AttributeError` before the written
truncation `result[:self._limit.limit_value]` can happen.  The truncation
is kept under the member-exists guard to show the intended behavior. -/
def returnResults (hasOrderBy : Bool) (lim : Option Nat)
    (fields : List (Bool × Option String)) (st : ReturnState) :
    Except String (List Record) :=
  if hasOrderBy then
    let sorted := orderBySort fields st.sortKeys st.results
    match lim with
    | some n =>
      if limitMemberNames.contains "limit_value" then .ok (sorted.take n)
      else .error "AttributeError: Limit object has no attribute limit_value"
    | none => .ok sorted
  else .ok st.results

lemma returnRun_accumulate (lim : Option Nat) :
    ∀ (rows : List (Record × List PyVal)) (st : ReturnState),
      rows.foldl (fun s rk => returnRun true lim true rk.1 rk.2 s) st =
        ⟨st.results ++ rows.map Prod.fst, st.sortKeys ++ rows.map Prod.snd,
          st.limitCount⟩ := by
  intro rows
  induction rows with
  | nil => intro st; simp
  | cons rk rest ih =>
    intro st
    have hstep : returnRun true lim true rk.1 rk.2 st =
        ⟨st.results ++ [rk.1], st.sortKeys ++ [rk.2], st.limitCount⟩ := by
      cases lim <;> rfl
    simp only [List.foldl_cons, hstep, ih, List.map_cons]
    simp

/-- C2: the code does defer the limit while records accumulate under an
ORDER BY (no record is dropped and the limit counter is never touched),
but reading `results` with both ORDER BY and LIMIT present raises
`AttributeError`, because `Return.results` accesses
`self._limit.limit_value` and the `Limit` class defines no such member —
the sorted list is never truncated to n records.  The claimed behavior
(sort, then truncate) is what the guarded truncation would do if the
member existed, and is what the repository's own test
`test_order_by_with_limit` expects. -/
theorem C2_order_by_defers_limit_but_results_raises :
    (∀ (n : Nat) (rows : List (Record × List PyVal)),
      rows.foldl (fun s rk => returnRun true (some n) true rk.1 rk.2 s) initReturnState =
        ⟨rows.map Prod.fst, rows.map Prod.snd, 0⟩) ∧
    (∀ (n : Nat) (fields : List (Bool × Option String)) (st : ReturnState),
      returnResults true (some n) fields st =
        .error "AttributeError: Limit object has no attribute limit_value") ∧
    (limitMemberNames.contains "limit_value" = false) ∧
    (∀ (fields : List (Bool × Option String)) (st : ReturnState),
      returnResults true none fields st = .ok (orderBySort fields st.sortKeys st.results)) := by
  refine ⟨?_, ?_, rfl, ?_⟩
  · intro n rows
    have := returnRun_accumulate (some n) rows initReturnState
    simpa [initReturnState] using this
  · intro n fields st
    rfl
  · intro fields st
    rfl

/-! ## UNION and UNION ALL (src/parsing/operations/union.py, union_all.py)

`Union.run` drives both sub-pipelines, validates column names only when
both result lists are non-empty (comparing the sorted key lists of the
first rows), and combines.  `Union._combine` starts from `list(left)` and
appends each right row whose JSON-canonical serialisation
(`json.dumps(row, sort_keys=True)`) matches no row already in the
combined list; `UnionAll._combine` concatenates. -/

/-- Insertion step for sorting a record's bindings by key. -/
def canonInsert (p : String × PyVal) :
    List (String × PyVal) → List (String × PyVal)
  | [] => [p]
  | q :: qs => if p.1 ≤ q.1 then p :: q :: qs else q :: canonInsert p qs

/-- The JSON-canonical form of a record: its bindings in ascending key
order, embedding `json.dumps(row, sort_keys=True)` — two records have
equal serialisations iff their key-sorted binding lists are equal
(record keys are unique). -/
def canon (r : Record) : List (String × PyVal) := r.foldr canonInsert []

/-- `Union._combine` (union.py, lines 89-107): start from `list(left)`,
append each right row whose canonical form differs from every row already
in the combined list. -/
def unionCombine (left right : List Record) : List Record :=
  right.foldl
    (fun combined row =>
      if combined.any (fun ex => decide (canon ex = canon row)) then combined
      else combined ++ [row])
    left

/-- `UnionAll._combine` (union_all.py, lines 12-17): plain concatenation. -/
def unionAllCombine (left right : List Record) : List Record := left ++ right

/-- `sorted(record.keys())`. -/
def sortStringsInsert (x : String) : List String → List String
  | [] => [x]
  | y :: ys => if x ≤ y then x :: y :: ys else y :: sortStringsInsert x ys

def sortedKeyNames (r : Record) : List String :=
  (r.map Prod.fst).foldr sortStringsInsert []

/-- `Union.run` (union.py, lines 60-87), after both sub-pipelines have
produced their result lists: the column-name validation runs only when
both lists are non-empty, comparing the sorted keys of the two first
rows; then the results are combined (`comb` is `_combine`, overridden by
`UnionAll`). -/
def unionRun (comb : List Record → List Record → List Record)
    (leftResults rightResults : List Record) : Except String (List Record) :=
  if leftResults ≠ [] ∧ rightResults ≠ [] then
    if sortedKeyNames (leftResults.headD []) ≠ sortedKeyNames (rightResults.headD []) then
      .error "All sub queries in a UNION must have the same return column names"
    else .ok (comb leftResults rightResults)
  else .ok (comb leftResults rightResults)

lemma unionCombine_cons (left : List Record) (row : Record) (rest : List Record) :
    unionCombine left (row :: rest) =
      unionCombine
        (if left.any (fun ex => decide (canon ex = canon row)) then left
          else left ++ [row]) rest := by
  simp only [unionCombine, List.foldl_cons]

lemma unionCombine_canon_mem (rest : List Record) :
    ∀ (c₀ : List Record) (c : List (String × PyVal)),
      c ∈ (unionCombine c₀ rest).map canon ↔ c ∈ (c₀ ++ rest).map canon := by
  induction rest with
  | nil => intro c₀ c; simp [unionCombine]
  | cons row rest ih =>
    intro c₀ c
    rw [unionCombine_cons]
    by_cases hdup : c₀.any (fun ex => decide (canon ex = canon row)) = true
    · rw [if_pos hdup, ih]
      constructor
      · intro h
        rcases List.mem_map.mp h with ⟨r, hr, rfl⟩
        rcases List.mem_append.mp hr with hr | hr
        · exact List.mem_map.mpr ⟨r, List.mem_append.mpr (Or.inl hr), rfl⟩
        · exact List.mem_map.mpr
            ⟨r, List.mem_append.mpr (Or.inr (List.mem_cons_of_mem _ hr)), rfl⟩
      · intro h
        rcases List.mem_map.mp h with ⟨r, hr, rfl⟩
        rcases List.mem_append.mp hr with hr | hr
        · exact List.mem_map.mpr ⟨r, List.mem_append.mpr (Or.inl hr), rfl⟩
        · rcases List.mem_cons.mp hr with rfl | hr
          · simp only [List.any_eq_true, decide_eq_true_eq] at hdup
            obtain ⟨ex, hex, hc⟩ := hdup
            exact List.mem_map.mpr ⟨ex, List.mem_append.mpr (Or.inl hex), hc⟩
          · exact List.mem_map.mpr ⟨r, List.mem_append.mpr (Or.inr hr), rfl⟩
    · rw [if_neg hdup, ih, List.append_assoc, List.singleton_append]

lemma unionCombine_nodup (rest : List Record) :
    ∀ (c₀ : List Record), (c₀.map canon).Nodup →
      ((unionCombine c₀ rest).map canon).Nodup := by
  induction rest with
  | nil => intro c₀ h; simpa [unionCombine] using h
  | cons row rest ih =>
    intro c₀ h
    rw [unionCombine_cons]
    by_cases hdup : c₀.any (fun ex => decide (canon ex = canon row)) = true
    · rw [if_pos hdup]
      exact ih c₀ h
    · rw [if_neg hdup]
      apply ih
      rw [List.map_append, List.map_singleton]
      apply List.Nodup.append h (List.nodup_singleton _)
      intro c hc hc'
      simp only [List.mem_singleton] at hc'
      subst hc'
      simp only [List.mem_map] at hc
      obtain ⟨r, hr, hcr⟩ := hc
      exact hdup (List.any_eq_true.mpr ⟨r, hr, by simp [hcr]⟩)

/-- C3 counterexample: UNION does not deduplicate rows inside the left
result list.  With L = [{x:1}, {x:1}] and R = [], the combined result is
[{x:1}, {x:1}] of cardinality 2, while |unique(L ∪ R)| = 1 — the claimed
equality fails. -/
theorem C3_union_counterexample :
    unionCombine [[("x", PyVal.vint 1)], [("x", PyVal.vint 1)]] [] =
      [[("x", PyVal.vint 1)], [("x", PyVal.vint 1)]] ∧
    ((([[("x", PyVal.vint 1)], [("x", PyVal.vint 1)]] : List Record) ++ []).map canon).toFinset.card = 1 ∧
    (unionCombine [[("x", PyVal.vint 1)], [("x", PyVal.vint 1)]] []).length ≠ 1 := by
  refine ⟨rfl, ?_, by decide⟩
  decide

/-- C3 amended: UNION ALL concatenates (cardinality |L| + |R|), and UNION
appends to L exactly those rows of R whose JSON-canonical form matches no
row already combined; consequently, whenever the left result list is
itself duplicate-free, the UNION result is duplicate-free with
cardinality |unique(L ∪ R)| (rows compared by canonical form).  Left-side
duplicates, however, are preserved. -/
theorem C3_union_dedup_union_all_concat :
    (∀ L R : List Record, unionAllCombine L R = L ++ R ∧
      (unionAllCombine L R).length = L.length + R.length) ∧
    (∀ L R : List Record, (L.map canon).Nodup →
      ((unionCombine L R).map canon).Nodup ∧
      (unionCombine L R).length = ((L ++ R).map canon).toFinset.card) := by
  constructor
  · intro L R
    exact ⟨rfl, List.length_append L R⟩
  · intro L R hnd
    have hnodup := unionCombine_nodup R L hnd
    refine ⟨hnodup, ?_⟩
    have hsets : ((unionCombine L R).map canon).toFinset =
        ((L ++ R).map canon).toFinset := by
      apply Finset.ext
      intro c
      simp only [List.mem_toFinset]
      exact unionCombine_canon_mem R L c
    calc (unionCombine L R).length
        = ((unionCombine L R).map canon).length := (List.length_map _ _).symm
      _ = ((unionCombine L R).map canon).toFinset.card :=
          (List.toFinset_card_of_nodup hnodup).symm
      _ = ((L ++ R).map canon).toFinset.card := by rw [hsets]

/-- Witness for C3 (amended): a duplicate-free left side with an
overlapping right side gives a duplicate-free union of the right
cardinality. -/
theorem C3_union_dedup_union_all_concat_witness :
    (unionCombine [[("x", PyVal.vint 1)]]
        [[("x", PyVal.vint 1)], [("x", PyVal.vint 2)]]).length =
      ((([[("x", PyVal.vint 1)]] : List Record) ++
        [[("x", PyVal.vint 1)], [("x", PyVal.vint 2)]]).map canon).toFinset.card :=
  (C3_union_dedup_union_all_concat.2
    [[("x", PyVal.vint 1)]]
    [[("x", PyVal.vint 1)], [("x", PyVal.vint 2)]]
    (by decide)).2

/-- C8 counterexample: when either sub-pipeline produces zero rows, the
column-name validation of `Union.run` is skipped entirely — here the left
side returns no rows and the right side's columns are accepted without
failure, contradicting the claim's "regardless of whether either side
produced zero rows". -/
theorem C8_union_counterexample :
    unionRun unionCombine [] [[("y", PyVal.vint 1)]] =
      .ok [[("y", PyVal.vint 1)]] := by
  rfl

/-- C8 amended: the column-name check fires only when both sub-pipelines
produced at least one row; it compares the sorted key lists of the two
first rows and raises the claimed error on mismatch; with either side
empty the combine proceeds unvalidated.  This applies to UNION and UNION
ALL alike (`comb` is the respective `_combine`). -/
theorem C8_union_column_mismatch :
    (∀ (comb : List Record → List Record → List Record) (l : Record)
        (ls : List Record) (r : Record) (rs : List Record),
      unionRun comb (l :: ls) (r :: rs) =
        if sortedKeyNames l ≠ sortedKeyNames r then
          .error "All sub queries in a UNION must have the same return column names"
        else .ok (comb (l :: ls) (r :: rs))) ∧
    (∀ comb R, unionRun comb [] R = .ok (comb [] R)) ∧
    (∀ comb L, unionRun comb L [] = .ok (comb L [])) := by
  refine ⟨?_, ?_, ?_⟩
  · intro comb l ls r rs
    simp [unionRun]
  · intro comb R
    simp [unionRun]
  · intro comb L
    cases L <;> simp [unionRun]

/-! ## Physical relationship handles (src/graph/physical_relationship.py)

The class stores only its defining statement; its constructor creates no
cache field, and `data()` builds a fresh Runner around the statement on
every call. -/

/-- A physical relationship handle.  The only state the class owns is
`_statement` (physical_relationship.py, constructor).  `Modelled from the
spec:` the Runner (compute/runner.py is not in the snapshot) runs a
pipeline to completion and yields its records, deterministically for a
fixed AST, so the statement is abstracted by the record list running it
produces. -/
structure PhysicalRelationshipState where
  statement : Option (List Record)
deriving DecidableEq

/-- `PhysicalRelationship.data` (physical_relationship.py, lines 30-38):
raise ValueError when the statement is null; otherwise construct a fresh
`Runner(None, self._statement)`, run it, and return its results.
`execCount` instruments the number of sub-pipeline executions: each call
runs exactly once and stores nothing back on the handle. -/
def physicalRelationshipData (ph : PhysicalRelationshipState) (execCount : Nat) :
    Except String (List Record × PhysicalRelationshipState × Nat) :=
  match ph.statement with
  | none => .error "Statement is null"
  | some recs => .ok (recs, ph, execCount + 1)

/-- C5 counterexample: two consecutive `data()` calls on the same
registered handle perform two sub-pipeline executions, not one —
`PhysicalRelationship.data` memoises nothing (the class has no cache
field), so the claimed "exactly one sub-pipeline execution" fails. -/
theorem C5_data_counterexample :
    physicalRelationshipData ⟨some [[("left_id", PyVal.vint 1)]]⟩ 0 =
      .ok ([[("left_id", PyVal.vint 1)]], ⟨some [[("left_id", PyVal.vint 1)]]⟩, 1) ∧
    physicalRelationshipData ⟨some [[("left_id", PyVal.vint 1)]]⟩ 1 =
      .ok ([[("left_id", PyVal.vint 1)]], ⟨some [[("left_id", PyVal.vint 1)]]⟩, 2) ∧
    (2 : Nat) ≠ 1 :=
  ⟨rfl, rfl, by decide⟩

/-- C5 amended: every `data()` call on a handle with a statement runs the
defining sub-pipeline afresh (one execution per call, nothing memoised on
the handle), returning the statement's records; consecutive calls return
equal record lists but perform one execution each; a handle without a
statement raises "Statement is null". -/
theorem C5_data_runs_every_call :
    (∀ (ph : PhysicalRelationshipState) (recs : List Record) (count : Nat),
      ph.statement = some recs →
      physicalRelationshipData ph count = .ok (recs, ph, count + 1)) ∧
    (∀ (ph : PhysicalRelationshipState) (recs : List Record) (count : Nat),
      ph.statement = some recs →
      ∃ r₁ r₂, physicalRelationshipData ph count = .ok (r₁, ph, count + 1) ∧
        physicalRelationshipData ph (count + 1) = .ok (r₂, ph, count + 2) ∧
        r₁ = r₂) ∧
    (∀ count, physicalRelationshipData ⟨none⟩ count = .error "Statement is null") := by
  refine ⟨?_, ?_, fun _ => rfl⟩
  · intro ph recs count h
    cases ph
    cases h
    rfl
  · intro ph recs count h
    cases ph
    cases h
    exact ⟨recs, recs, rfl, rfl, rfl⟩

/-- Witness for C5 (amended): at a concrete handle, both consecutive
calls return the statement's records with one execution each. -/
theorem C5_data_runs_every_call_witness :
    ∃ r₁ r₂,
      physicalRelationshipData ⟨some [[("left_id", PyVal.vint 7)]]⟩ 0 =
        .ok (r₁, ⟨some [[("left_id", PyVal.vint 7)]]⟩, 1) ∧
      physicalRelationshipData ⟨some [[("left_id", PyVal.vint 7)]]⟩ 1 =
        .ok (r₂, ⟨some [[("left_id", PyVal.vint 7)]]⟩, 2) ∧
      r₁ = r₂ :=
  C5_data_runs_every_call.2.1 ⟨some [[("left_id", PyVal.vint 7)]]⟩
    [[("left_id", PyVal.vint 7)]] 0 rfl

/-! ## Database and DELETE (src/graph/database.py,
src/parsing/operations/delete_node.py)

`DeleteNode.run` fetches the singleton Database and invokes
`db.remove_node(self._node)`.  The `Database` class defines no
`remove_node` method (database.py defines exactly the methods listed
below, and no other module adds one), so the attribute lookup raises
`AttributeError` and no handle is removed. -/

/-- Generic association-list lookup (Python dict `get`). -/
def alookup {α : Type} : List (String × α) → String → Option α
  | [], _ => none
  | (k, v) :: rest, key => if k = key then some v else alookup rest key

/-- Insertion-ordered dict assignment `m[k] = v`: replace in place if the
key exists, else append. -/
def assocSet {α : Type} : List (String × α) → String → α → List (String × α)
  | [], k, v => [(k, v)]
  | (k', v') :: rest, k, v =>
    if k' = k then (k, v) :: rest else (k', v') :: assocSet rest k v

/-- The methods the `Database` class defines (database.py, lines 16-130):
`get_instance`, `add_node`, `get_node`, `add_relationship`,
`get_relationship`, `get_relationships`, `schema` (with the private
`_schema`), `get_data` — and nothing else.  In particular there is no
`remove_node` and no `remove_relationship`. -/
def databaseMethodNames : List String :=
  ["get_instance", "add_node", "get_node", "add_relationship",
    "get_relationship", "get_relationships", "schema", "get_data"]

/-- The Database registries: `_nodes` (label → physical-node handle) and
`_relationships` (type → physical-relationship handle); handles are
abstracted by their statements' record lists as for
`PhysicalRelationshipState`. -/
structure DatabaseState where
  nodes : List (String × List Record)
  relationships : List (String × List Record)
deriving DecidableEq

/-- A graph-pattern node as `DELETE` uses it: only the label matters
(node.py is not in the snapshot; `Database.add_node` reads just
`node.label`). -/
structure NodeModel where
  label : Option String
deriving DecidableEq

/-- `Database.add_node` (database.py, lines 32-38): a null label raises;
otherwise a fresh physical handle for the statement is stored under the
label. -/
def addNode (db : DatabaseState) (label : Option String) (stmt : List Record) :
    Except String DatabaseState :=
  match label with
  | none => .error "Node label is null"
  | some l => .ok { db with nodes := assocSet db.nodes l stmt }

/-- `Database.get_node` (database.py, lines 40-42). -/
def getNode (db : DatabaseState) (label : Option String) : Option (List Record) :=
  match label with
  | none => none
  | some l => alookup db.nodes l

/-- The node labels `Database.schema` reports: one entry per registered
label (database.py, `_schema` iterates `Database._nodes.items()`). -/
def schemaNodeLabels (db : DatabaseState) : List String := db.nodes.map Prod.fst

/-- `DeleteNode.run` (delete_node.py, lines 21-29): a null node raises
ValueError; otherwise the operation calls `db.remove_node(self._node)`.
`remove_node` is not among the Database's methods, so the call raises
`AttributeError`.  The removal under the member-exists guard shows
the intended behavior (`Modelled from the spec:` "A DELETE removes a
handle"), which is unreachable in this code. -/
def deleteNodeRun (db : DatabaseState) (node : Option NodeModel) :
    Except String DatabaseState :=
  match node with
  | none => .error "Node is null"
  | some n =>
    if databaseMethodNames.contains "remove_node" then
      .ok { db with nodes := db.nodes.filter (fun p => some p.1 ≠ n.label) }
    else .error "AttributeError: Database object has no attribute remove_node"

lemma alookup_assocSet {α : Type} (m : List (String × α)) (k : String) (v : α) :
    alookup (assocSet m k v) k = some v := by
  induction m with
  | nil => simp [assocSet, alookup]
  | cons p rest ih =>
    by_cases h : p.1 = k
    · simp [assocSet, h, alookup]
    · cases p
      simp only at h
      simp [assocSet, h, alookup, ih]

/-- C6: running DELETE on a registered label does not remove the handle —
`DeleteNode.run` invokes `db.remove_node`, a method the `Database` class
never defines, so the operation raises `AttributeError`; the label still
resolves to its physical node and the schema still lists it.  The claim
describes the clear intent ("A DELETE removes a handle"), which the code
fails to implement. -/
theorem C6_delete_node_raises_attribute_error :
    (databaseMethodNames.contains "remove_node" = false) ∧
    (∀ (db : DatabaseState) (n : NodeModel),
      deleteNodeRun db (some n) =
        .error "AttributeError: Database object has no attribute remove_node") ∧
    (∀ db : DatabaseState, deleteNodeRun db none = .error "Node is null") ∧
    (∀ (db₀ db₁ : DatabaseState) (stmt : List Record),
      addNode db₀ (some "Person") stmt = .ok db₁ →
        getNode db₁ (some "Person") = some stmt ∧
        "Person" ∈ schemaNodeLabels db₁ ∧
        deleteNodeRun db₁ (some ⟨some "Person"⟩) =
          .error "AttributeError: Database object has no attribute remove_node") := by
  refine ⟨rfl, fun _ _ => rfl, fun _ => rfl, ?_⟩
  intro db₀ db₁ stmt h
  have hdb : db₁ = { db₀ with nodes := assocSet db₀.nodes "Person" stmt } := by
    cases h; rfl
  subst hdb
  refine ⟨alookup_assocSet db₀.nodes "Person" stmt, ?_, rfl⟩
  show "Person" ∈ (assocSet db₀.nodes "Person" stmt).map Prod.fst
  clear h
  induction db₀.nodes with
  | nil => simp [assocSet]
  | cons p rest ih =>
    by_cases hp : p.1 = "Person"
    · simp [assocSet, hp]
    · cases p
      simp only at hp
      simp [assocSet, hp, ih]

/-- Witness for C6: registering label Person in an empty database and
then deleting it leaves the handle visible and raises. -/
theorem C6_delete_node_raises_attribute_error_witness :
    getNode ⟨[("Person", [[("id", PyVal.vint 1)]])], []⟩ (some "Person") =
      some [[("id", PyVal.vint 1)]] ∧
    "Person" ∈ schemaNodeLabels ⟨[("Person", [[("id", PyVal.vint 1)]])], []⟩ ∧
    deleteNodeRun ⟨[("Person", [[("id", PyVal.vint 1)]])], []⟩ (some ⟨some "Person"⟩) =
      .error "AttributeError: Database object has no attribute remove_node" :=
  C6_delete_node_raises_attribute_error.2.2.2 ⟨[], []⟩
    ⟨[("Person", [[("id", PyVal.vint 1)]])], []⟩ [[("id", PyVal.vint 1)]] rfl

/-! ## MATCH / OPTIONAL MATCH (src/parsing/operations/match.py) -/

/-- An element of a pattern chain with its current runtime value: the
source distinguishes nodes from relationships only through
`isinstance(element, Node)`. -/
inductive PatElem where
  | nodeElem : Option PyVal → PatElem
  | relElem : Option PyVal → PatElem
deriving DecidableEq

/-- The element's current value (a node's bound record / a relationship's
collected match), flattened to an optional scalar for this embedding. -/
def elemValue : PatElem → Option PyVal
  | .nodeElem v => v
  | .relElem v => v

/-- `Match.run` (match.py, lines 30-53).  `Modelled from the spec:`
`Patterns.traverse` (patterns.py, not in the snapshot) fires the
installed `to_do_next` continuation once per legal binding, each firing
running the pipeline tail once; `bindings` abstracts that count.  When
nothing matched and the operation is OPTIONAL, the source iterates the
chain and sets the value of every element that is a `Node` to `None` —
`isinstance(element, Node)` — leaving relationship elements untouched,
then runs the tail once.  The result is the chain after the run and the
number of tail runs. -/
def matchRun (optional : Bool) (bindings : Nat) (chain : List PatElem) :
    List PatElem × Nat :=
  if bindings = 0 ∧ optional then
    (chain.map (fun e => match e with
      | .nodeElem _ => .nodeElem none
      | .relElem v => .relElem v), 1)
  else (chain, bindings)

/-- C4 counterexample: an OPTIONAL MATCH whose pattern yields no binding
runs the tail once, but only the node variables are nulled — the
relationship element keeps its previous (non-null) value, refuting
"every pattern variable's value — node and relationship variables alike —
set to null". -/
theorem C4_optional_match_counterexample :
    matchRun true 0
        [.nodeElem (some (.vint 1)), .relElem (some (.vstr "K")),
          .nodeElem (some (.vint 2))] =
      ([.nodeElem none, .relElem (some (.vstr "K")), .nodeElem none], 1) ∧
    ¬ (∀ e ∈ (matchRun true 0
        [.nodeElem (some (.vint 1)), .relElem (some (.vstr "K")),
          .nodeElem (some (.vint 2))]).1, elemValue e = none) := by
  refine ⟨rfl, ?_⟩
  intro h
  have := h (.relElem (some (.vstr "K"))) (by decide)
  cases this

/-- C4 amended: if the inner pattern of an OPTIONAL MATCH yields no
binding, the operation runs the pipeline tail exactly once with every
*node* variable's value set to null, while relationship variables keep
whatever value they held; with at least one binding, or without OPTIONAL,
the fallback does not fire (tail runs once per binding, values
untouched). -/
theorem C4_optional_match_null_fallback :
    (∀ chain, (matchRun true 0 chain).2 = 1) ∧
    (∀ chain i v, chain.get? i = some (.nodeElem v) →
      (matchRun true 0 chain).1.get? i = some (.nodeElem none)) ∧
    (∀ chain i v, chain.get? i = some (.relElem v) →
      (matchRun true 0 chain).1.get? i = some (.relElem v)) ∧
    (∀ k chain, k ≠ 0 → matchRun true k chain = (chain, k)) ∧
    (∀ k chain, matchRun false k chain = (chain, k)) := by
  refine ⟨?_, ?_, ?_, ?_, ?_⟩
  · intro chain; simp [matchRun]
  · intro chain i v h
    have h' : chain[i]? = some (.nodeElem v) := by
      rw [← List.get?_eq_getElem?]; exact h
    simp [matchRun, List.get?_eq_getElem?, List.getElem?_map, h']
  · intro chain i v h
    have h' : chain[i]? = some (.relElem v) := by
      rw [← List.get?_eq_getElem?]; exact h
    simp [matchRun, List.get?_eq_getElem?, List.getElem?_map, h']
  · intro k chain hk
    simp [matchRun, hk]
  · intro k chain
    simp [matchRun]

/-- Witness for C4 (amended): concrete chain with one node and one
relationship element. -/
theorem C4_optional_match_null_fallback_witness :
    (matchRun true 0 [.nodeElem (some (.vint 5)), .relElem (some (.vint 9))]).1.get? 0 =
      some (.nodeElem none) ∧
    (matchRun true 0 [.nodeElem (some (.vint 5)), .relElem (some (.vint 9))]).1.get? 1 =
      some (.relElem (some (.vint 9))) ∧
    matchRun true 2 [.nodeElem (some (.vint 5))] = ([.nodeElem (some (.vint 5))], 2) := by
  refine ⟨?_, ?_, ?_⟩
  · exact C4_optional_match_null_fallback.2.1
      [.nodeElem (some (.vint 5)), .relElem (some (.vint 9))] 0 (some (.vint 5)) rfl
  · exact C4_optional_match_null_fallback.2.2.1
      [.nodeElem (some (.vint 5)), .relElem (some (.vint 9))] 1 (some (.vint 9)) rfl
  · exact C4_optional_match_null_fallback.2.2.2.1 2 [.nodeElem (some (.vint 5))]
      (by decide)

/-! ## The graph data layer (src/graph/data.py, relationship_data.py)

`Data` stores an immutable record list plus per-level `Layer`s; each layer
holds per-column inverted indexes (column value → `IndexEntry`, a
position list with a cursor).  `RelationshipData` builds the `left_id`
and `right_id` indexes on layer 0. -/

/-- Python list indexing with negative indices (`l[i]`); an
out-of-range access (Python `IndexError`) is modelled as `none`. -/
def pyIndex {α : Type} (l : List α) (i : Int) : Option α :=
  if i ≥ 0 then l.get? i.toNat
  else if (-i).toNat ≤ l.length then l.get? (l.length - (-i).toNat) else none

/-- `IndexEntry` (data.py, lines 6-36): the positions of the records
carrying one index key, and the cursor `_index` (-1 before the first
`next`). -/
structure IndexEntry where
  positions : List Nat
  index : Int
deriving DecidableEq

/-- `IndexEntry.next` (data.py, lines 26-31). -/
def IndexEntry.advance (e : IndexEntry) : Bool × IndexEntry :=
  if e.index < (e.positions.length : Int) - 1 then
    (true, { e with index := e.index + 1 })
  else (false, e)

/-- `IndexEntry.position` (data.py, lines 17-20):
`self._positions[self._index]` with Python indexing; only read after a
successful `next`, so the cursor is a valid non-negative index there. -/
def IndexEntry.currentPos (e : IndexEntry) : Nat :=
  (pyIndex e.positions e.index).getD 0

/-- `Layer` (data.py, lines 39-65): named indexes plus the `_current`
record position (-1 initially). -/
structure Layer where
  indexes : List (String × List (PyVal × IndexEntry))
  current : Int
deriving DecidableEq

/-- Association lookup keyed by an index value. -/
def vlookup : List (PyVal × IndexEntry) → PyVal → Option IndexEntry
  | [], _ => none
  | (k, e) :: rest, key => if k = key then some e else vlookup rest key

/-- Association update keyed by an index value (dict assignment). -/
def vset : List (PyVal × IndexEntry) → PyVal → IndexEntry → List (PyVal × IndexEntry)
  | [], k, e => [(k, e)]
  | (k', e') :: rest, k, e =>
    if k' = k then (k, e) :: rest else (k', e') :: vset rest k e

/-- Association lookup keyed by a layer level. -/
def nlookup : List (Nat × Layer) → Nat → Option Layer
  | [], _ => none
  | (k, l) :: rest, key => if k = key then some l else nlookup rest key

/-- Association update keyed by a layer level. -/
def nset : List (Nat × Layer) → Nat → Layer → List (Nat × Layer)
  | [], k, l => [(k, l)]
  | (k', l') :: rest, k, l =>
    if k' = k then (k, l) :: rest else (k', l') :: nset rest k l

/-- `Data` (data.py, lines 68-137): the record list and the layers. -/
structure DataState where
  records : List Record
  layers : List (Nat × Layer)
deriving DecidableEq

/-- The loop body of `Data._build_index` (data.py, lines 76-84): walk the
records in order; each record carrying the key appends its position to
the key value's entry (creating the entry on first sight). -/
def buildIndexAux (key : String) :
    List Record → Nat → List (PyVal × IndexEntry) → List (PyVal × IndexEntry)
  | [], _, idx => idx
  | r :: rest, i, idx =>
    match rlookup r key with
    | none => buildIndexAux key rest (i + 1) idx
    | some v =>
      let entry := (vlookup idx v).getD ⟨[], -1⟩
      buildIndexAux key rest (i + 1)
        (vset idx v { entry with positions := entry.positions ++ [i] })

/-- `RelationshipData.__init__` (relationship_data.py, lines 18-21):
`Data.__init__` creates layer 0, then `_build_index("left_id")` and
`_build_index("right_id")` fill its two indexes in that order. -/
def relationshipDataInit (records : List Record) : DataState :=
  { records := records,
    layers := [(0,
      { indexes := [("left_id", buildIndexAux "left_id" records 0 []),
          ("right_id", buildIndexAux "right_id" records 0 [])],
        current := -1 })] }

/-- A cloned index map: positions copied, cursors reset
(`IndexEntry.clone`, data.py, lines 33-35). -/
def cloneIndexes (ixs : List (String × List (PyVal × IndexEntry))) :
    List (String × List (PyVal × IndexEntry)) :=
  ixs.map (fun p => (p.1, p.2.map (fun q => (q.1, ⟨q.2.positions, -1⟩))))

/-- `Data.layer` (data.py, lines 86-97): get the layer for a level,
creating it by cloning layer 0's indexes when absent. -/
def getLayer (ds : DataState) (level : Nat) : Layer × DataState :=
  match nlookup ds.layers level with
  | some l => (l, ds)
  | none =>
    let l0 := (nlookup ds.layers 0).getD ⟨[], -1⟩
    let l : Layer := ⟨cloneIndexes l0.indexes, -1⟩
    (l, { ds with layers := nset ds.layers level l })

def setLayer (ds : DataState) (level : Nat) (l : Layer) : DataState :=
  { ds with layers := nset ds.layers level l }

/-- `Data._find` (data.py, lines 99-117), as `RelationshipData.find`
invokes it with an explicit index name: missing index or key parks the
cursor past the end and fails; otherwise the entry's cursor advances
(the advance persists even when exhausted) and the layer's current
position is set. -/
def dataFind (ds : DataState) (key : PyVal) (level : Nat) (indexName : String) :
    Bool × DataState :=
  let (layer, ds) := getLayer ds level
  let (idx, layer) :=
    match alookup layer.indexes indexName with
    | some m => (m, layer)
    | none => ([], { layer with indexes := layer.indexes ++ [(indexName, [])] })
  match vlookup idx key with
  | none =>
    (false, setLayer ds level { layer with current := (ds.records.length : Int) })
  | some entry =>
    let more := entry.advance.1
    let entry' := entry.advance.2
    let layer := { layer with indexes := assocSet layer.indexes indexName (vset idx key entry') }
    if more then
      (true, setLayer ds level { layer with current := (entry'.currentPos : Int) })
    else
      (false, setLayer ds level { layer with current := (ds.records.length : Int) })

/-- `Data.reset` (data.py, lines 119-125): every layer's current position
and every index entry's cursor back to -1. -/
def dataReset (ds : DataState) : DataState :=
  { ds with layers := ds.layers.map (fun p => (p.1,
      { indexes := p.2.indexes.map (fun q => (q.1,
          q.2.map (fun e => (e.1, { e.2 with index := -1 })))),
        current := -1 })) }

/-- `Data.current` (data.py, lines 132-137): the record at the layer's
current position when it is below the record count; Python's negative
indexing applies (a fresh layer's `-1` reads the *last* record). -/
def dataCurrent (ds : DataState) (level : Nat) : Option Record × DataState :=
  let (layer, ds) := getLayer ds level
  if layer.current < (ds.records.length : Int) then
    (pyIndex ds.records layer.current, ds)
  else (none, ds)

/-! ## The relationship matcher (src/graph/relationship.py,
relationship_match_collector.py)

`Relationship.find` drives the traversal: per-hop enumeration of matching
records via the data layer, match-stack pushes through `set_value`,
property checks, the continuation into the target node, the cycle check,
and the variable-length recursion.  The collector
(`RelationshipMatchCollector`) records one match record and one traversal
id per push — `set_value` calls `push(relationship)` with the default
`traversal_id = ""`, and `find` calls `is_circular()` with the default
`next_id = ""`. -/

/-- `Hops`.  `Modelled from the spec:` hops.py is not in the snapshot;
per the spec a relationship's hops carry `{min, max}` and `multi()`
distinguishes variable-length from fixed-length patterns (a plain `[r:T]`
has min = max = 1, not multi). -/
structure HopsModel where
  hmin : Nat
  hmax : Nat
  multiFlag : Bool
deriving DecidableEq

/-- The static configuration of a `Relationship` in a pattern: its type,
direction, hops and evaluated property constraints
(relationship.py constructor).  `hasTarget` reflects `self._target`
being wired by pattern initialisation. -/
structure RelConfig where
  rtype : Option String
  direction : String
  hops : HopsModel
  props : List (String × PyVal)
  hasTarget : Bool
deriving DecidableEq

/-- One `RelationshipMatchRecord` as the collector builds it
(relationship_match_collector.py, lines 12-18 and 28-46): the type read
from the record's `_type` column (falling back to the relationship's
declared type), and the record's property columns.  The `startNode` /
`endNode` slots read the flanking nodes' values; node.py is not in the
snapshot and no claim below depends on them, so they are omitted. -/
structure MatchRec where
  mtype : String
  properties : Record
deriving DecidableEq

/-- `RelationshipData.properties` (relationship_data.py, lines 27-36):
the current record without `left_id`, `right_id` and `_type`. -/
def relProperties (r : Record) : Record :=
  r.filter (fun p => decide (p.1 ≠ "left_id" ∧ p.1 ≠ "right_id" ∧ p.1 ≠ "_type"))

/-- The traversal state threading through `find`: the relationship's data
cursors, its match collector (`_matches` plus the parallel `_node_ids`
list), and the bindings emitted by the pattern's end node. -/
structure FindState where
  data : DataState
  matchStack : List MatchRec
  nodeIds : List String
  emitted : List PyVal
deriving DecidableEq

/-- `RelationshipMatchCollector.push` as `set_value` invokes it
(relationship.py, lines 126-129; collector lines 28-46): build the match
record from `rel_data.current()` — note: at the collector's default level
0 whatever the current hop — and append the *default* traversal id `""`
to `_node_ids`. -/
def collectorPush (cfg : RelConfig) (st : FindState) : FindState :=
  let cur := (dataCurrent st.data 0).1
  let ds := (dataCurrent st.data 0).2
  let defaultType := cfg.rtype.getD ""
  let actualType :=
    match cur with
    | some r =>
      match rlookup r "_type" with
      | some (.vstr t) => t
      | some _ => defaultType
      | none => defaultType
    | none => defaultType
  let props :=
    match cur with
    | some r => relProperties r
    | none => []
  { st with
    data := ds
    matchStack := st.matchStack ++ [⟨actualType, props⟩]
    nodeIds := st.nodeIds ++ [""] }

/-- `RelationshipMatchCollector.pop` (collector lines 62-68). -/
def collectorPop (st : FindState) : FindState :=
  { st with nodeIds := st.nodeIds.dropLast, matchStack := st.matchStack.dropLast }

/-- `RelationshipMatchCollector.is_circular` (collector lines 84-86):
membership of the queried id in the recorded id list.  `find` always
calls it with the default `next_id = ""`. -/
def collectorIsCircular (st : FindState) (nextId : String) : Bool :=
  st.nodeIds.contains nextId

/-- `Relationship._matches_properties` (relationship.py, lines 64-77) for
the current record: an empty constraint map passes; otherwise the `for`
loop fetches the current record (`None` → "No current relationship data
available"), checks the *first* key and returns
`record[key] == expression.value()` — the `return` sits inside the loop,
so keys after the first are never examined.  (The `self._data is None`
guard returns `True`; `find` only reaches this with data present.) -/
def matchesProperties (props : List (String × PyVal)) (cur : Option Record) :
    Except String Bool :=
  match props with
  | [] => .ok true
  | (key, v) :: _ =>
    match cur with
    | none => .error "No current relationship data available"
    | some r =>
      match rlookup r key with
      | none => .error "Relationship does not have property"
      | some rv => .ok (decide (rv = v))

/-- The pattern's end node.  `Modelled from the spec:` node.py is not in
the snapshot; per the spec, when the traversal reaches the pattern's end
node its `find` binds the node to the followed id and fires the
`todo_next` continuation.  We record each firing as one emitted id. -/
def targetFind (st : FindState) (id : PyVal) : FindState :=
  { st with emitted := st.emitted ++ [id] }

mutual

/-- `Relationship.find` (relationship.py, lines 142-187), for direction
`right`-shaped traversal state.  At hop 0 the data cursors reset and a
variable-length pattern with min 0 fires the zero-hop match (target bound
to the source id, nothing pushed).  Then the while loop
(`relFindLoop`).  The save/restore of `self._source` around the body only
feeds the collector's unmodelled `startNode` slot.  `fuel` bounds the
recursion depth (the Python recursion is unbounded; every concrete run
below terminates well within the supplied fuel). -/
def relFind : Nat → RelConfig → PyVal → Nat → FindState → FindState × Option String
  | 0, _, _, _, st => (st, some "recursion fuel exhausted")
  | fuel + 1, cfg, leftId, hop, st =>
    let st := if hop = 0 then { st with data := dataReset st.data } else st
    let st :=
      if hop = 0 ∧ cfg.hops.multiFlag ∧ cfg.hops.hmin = 0 ∧ cfg.hasTarget then
        targetFind st leftId
      else st
    relFindLoop fuel cfg leftId hop st

/-- The `while self._data and find_match(left_id, hop)` loop of
`Relationship.find` (relationship.py, lines 163-185).  With direction
`left`, `find_match` calls `self._data.find_reverse` — a method
`RelationshipData` does not define, so that direction raises
`AttributeError`; otherwise `self._data.find(id, hop)` searches the
`left_id` index and the traversal follows `right_id`.  A found record at
or above the minimum hop count is pushed (`set_value`), property-checked
(a mismatch `continue`s *without popping*), continued into the target,
subjected to the `is_circular()` check (raising "Circular relationship
detected"), recursed for further hops while below the maximum, and popped
on backtrack.  Below the minimum, the edge is traversed without
yielding. -/
def relFindLoop : Nat → RelConfig → PyVal → Nat → FindState → FindState × Option String
  | 0, _, _, _, st => (st, some "recursion fuel exhausted")
  | fuel + 1, cfg, leftId, hop, st =>
    if cfg.direction = "left" then
      (st, some "AttributeError: RelationshipData object has no attribute find_reverse")
    else
      let found := (dataFind st.data leftId hop "left_id").1
      let st := { st with data := (dataFind st.data leftId hop "left_id").2 }
      if found then
        let cur := (dataCurrent st.data hop).1
        let st := { st with data := (dataCurrent st.data hop).2 }
        match cur with
        | some d =>
          if hop + 1 ≥ cfg.hops.hmin then
            let st := collectorPush cfg st
            let cur2 := (dataCurrent st.data hop).1
            let st := { st with data := (dataCurrent st.data hop).2 }
            match matchesProperties cfg.props cur2 with
            | .error e => (st, some e)
            | .ok false => relFindLoop fuel cfg leftId hop st
            | .ok true =>
              let st :=
                if cfg.hasTarget ∧ (rlookup d "right_id").isSome then
                  targetFind st ((rlookup d "right_id").getD .vnull)
                else st
              if collectorIsCircular st "" then
                (st, some "Circular relationship detected")
              else
                let next :=
                  if hop + 1 < cfg.hops.hmax then
                    relFind fuel cfg ((rlookup d "right_id").getD .vnull) (hop + 1) st
                  else (st, none)
                match next.2 with
                | some e => (next.1, some e)
                | none => relFindLoop fuel cfg leftId hop (collectorPop next.1)
          else
            let next :=
              if (rlookup d "right_id").isSome then
                relFind fuel cfg ((rlookup d "right_id").getD .vnull) (hop + 1) st
              else (st, none)
            match next.2 with
            | some e => (next.1, some e)
            | none => relFindLoop fuel cfg leftId hop next.1
        | none => relFindLoop fuel cfg leftId hop st
      else (st, none)

end

/-! ### Concrete traversal inputs -/

/-- A single acyclic edge 1 → 2. -/
def c1Records : List Record := [[("left_id", .vint 1), ("right_id", .vint 2)]]

/-- A fixed-length `-[:K]->` relationship (min = max = 1, not multi). -/
def c1Cfg : RelConfig := ⟨some "K", "right", ⟨1, 1, false⟩, [], true⟩

def c1Init : FindState := ⟨relationshipDataInit c1Records, [], [], []⟩

/-- A genuine two-cycle: edges 1 → 2 and 2 → 1. -/
def c1CycleRecords : List Record :=
  [[("left_id", .vint 1), ("right_id", .vint 2)],
    [("left_id", .vint 2), ("right_id", .vint 1)]]

/-- A variable-length `-[:K*1..3]->` relationship. -/
def c1VarCfg : RelConfig := ⟨some "K", "right", ⟨1, 3, true⟩, [], true⟩

def c1VarInit : FindState := ⟨relationshipDataInit c1CycleRecords, [], [], []⟩

/-- C1: the cycle machinery is inert and the circular check fires on
*every* match.  `set_value` pushes with the collector's default traversal
id `""` (`push(relationship)`, no second argument) and `find` queries
`is_circular()` with the default `next_id = ""`, which is in the id list
after any push.  On the acyclic single-edge graph {(1,2)}, a fixed-length
traversal from node 1 emits its one legal binding and then raises
"Circular relationship detected" although no node is revisited; on the
cyclic graph {(1,2),(2,1)}, a variable-length traversal raises the same
error on its first edge instead of skipping the revisiting step.  Both
contradict the claim — and the repository's own tests
(test_circular_graph_pattern expects two bindings and no error;
test_circular_graph_pattern_with_variable_length_should_not_revisit_nodes
expects six acyclic paths). -/
theorem C1_cycle_check_fires_on_every_match :
    ((relFind 10 c1Cfg (.vint 1) 0 c1Init).2 =
        some "Circular relationship detected" ∧
      (relFind 10 c1Cfg (.vint 1) 0 c1Init).1.emitted = [.vint 2] ∧
      (relFind 10 c1Cfg (.vint 1) 0 c1Init).1.nodeIds = [""]) ∧
    ((relFind 20 c1VarCfg (.vint 1) 0 c1VarInit).2 =
        some "Circular relationship detected" ∧
      (relFind 20 c1VarCfg (.vint 1) 0 c1VarInit).1.emitted = [.vint 2]) := by
  exact ⟨⟨by decide, by decide, by decide⟩, by decide, by decide⟩

/-- C7 counterexample: a relationship record satisfying the first
constrained key but *missing* the second is accepted — no
"Relationship does not have property" error is raised, because
`_matches_properties` returns from inside its loop after checking only
the first key.  The claim's "a record missing any constrained property
raises" fails. -/
theorem C7_property_check_counterexample :
    matchesProperties [("a", .vint 1), ("b", .vint 2)] (some [("a", .vint 1)]) =
      .ok true ∧
    rlookup [("a", .vint 1)] "b" = none :=
  ⟨rfl, rfl⟩

/-- The single-edge graph 1 → 2 whose edge carries property w = 5. -/
def c7Records : List Record :=
  [[("left_id", .vint 1), ("right_id", .vint 2), ("w", .vint 5)]]

/-- A fixed-length relationship constrained by {w: 9}, mismatching the
record's w = 5. -/
def c7Cfg : RelConfig := ⟨some "K", "right", ⟨1, 1, false⟩, [("w", .vint 9)], true⟩

def c7Init : FindState := ⟨relationshipDataInit c7Records, [], [], []⟩

/-- C7 amended: only the *first* constrained key (in property-map
insertion order) is checked after the record is selected — a record
missing that key raises "Relationship does not have property", a record
whose value for it differs is skipped, and later keys are never examined;
moreover the skip happens via `continue` *after* `set_value` has pushed
and *without* popping, so the mismatching record's match remains on the
relationship's match stack (final conjunct: the mismatch run emits no
binding yet leaves one pushed match behind). -/
theorem C7_property_first_key_only :
    (∀ (k : String) (v : PyVal) (rest : List (String × PyVal)) (r : Record),
      rlookup r k = none →
      matchesProperties ((k, v) :: rest) (some r) =
        .error "Relationship does not have property") ∧
    (∀ (k : String) (v : PyVal) (rest : List (String × PyVal)) (r : Record)
        (rv : PyVal),
      rlookup r k = some rv →
      matchesProperties ((k, v) :: rest) (some r) = .ok (decide (rv = v))) ∧
    (∀ cur, matchesProperties [] cur = .ok true) ∧
    ((relFind 10 c7Cfg (.vint 1) 0 c7Init).2 = none ∧
      (relFind 10 c7Cfg (.vint 1) 0 c7Init).1.emitted = [] ∧
      (relFind 10 c7Cfg (.vint 1) 0 c7Init).1.matchStack =
        [⟨"K", [("w", .vint 5)]⟩]) := by
  refine ⟨?_, ?_, fun cur => rfl, by decide, by decide, by decide⟩
  · intro k v rest r h
    simp [matchesProperties, h]
  · intro k v rest r rv h
    simp [matchesProperties, h]

/-- Witness for C7 (amended): a record missing the first constrained key
raises; a record whose first constrained value differs yields no match
regardless of the (never-examined) second key. -/
theorem C7_property_first_key_only_witness :
    matchesProperties [("a", .vint 1), ("b", .vint 2)] (some [("c", .vint 0)]) =
      .error "Relationship does not have property" ∧
    matchesProperties [("a", .vint 1), ("zz", .vint 2)] (some [("a", .vint 3)]) =
      .ok false := by
  constructor
  · exact C7_property_first_key_only.1 "a" (.vint 1) [("b", .vint 2)]
      [("c", .vint 0)] rfl
  · have h := C7_property_first_key_only.2.1 "a" (.vint 1) [("zz", .vint 2)]
      [("a", .vint 3)] (.vint 3) rfl
    simpa using h

end FlowQuery
